import Mathlib

set_option maxRecDepth 100000

/-!
Verification of the degree-market saturation pipeline.

The development shallowly embeds the analytical core of the pipeline:
field codes are lists of characters, numeric columns are rationals, and a
possibly undefined (NaN) saturation index is an Option value.  Comparisons
involving a missing value are false, matching the NaN comparison semantics
of the host numeric library.
-/

/-- Field codes and labels are modelled as lists of characters. -/
abbrev Str := List Char

/-- Family of a field code: the part of the code before the first dot. -/
def familyOf (s : Str) : Str := s.takeWhile fun c => c != '.'

/-- Strict comparison of possibly missing values: any comparison that
involves a missing value is false, as with NaN. -/
def naLt (a b : Option ℚ) : Bool :=
  match a, b with
  | some x, some y => decide (x < y)
  | _, _ => false

/-- Ascending-order comparator for possibly missing values, missing values
ordered last, as the sorting routine of the host library does. -/
def naLe (a b : Option ℚ) : Bool :=
  match a, b with
  | some x, some y => decide (x ≤ y)
  | some _, none => true
  | none, some _ => false
  | none, none => true

instance {ε α : Type} [DecidableEq ε] [DecidableEq α] : DecidableEq (Except ε α) := fun a b =>
  match a, b with
  | Except.ok x, Except.ok y =>
    if h : x = y then isTrue (congrArg Except.ok h)
    else isFalse fun hc => h (Except.ok.inj hc)
  | Except.error x, Except.error y =>
    if h : x = y then isTrue (congrArg Except.error h)
    else isFalse fun hc => h (Except.error.inj hc)
  | Except.ok _, Except.error _ => isFalse fun hc => Except.noConfusion hc
  | Except.error _, Except.ok _ => isFalse fun hc => Except.noConfusion hc

/-- One row of the aggregated supply history: a field code, a data year and
the summed graduate count for that field and year. -/
structure SupplyRow where
  CIP_Code : Str
  Year : ℤ
  Graduates : ℚ
deriving DecidableEq

/-- One row of the aggregated demand table, one per field code. -/
structure DemandRow where
  CIP_Code : Str
  CIP_Title : Str
  Current_Employment : ℚ
  Projected_Employment : ℚ
  Annual_Openings : ℚ
  Mapped_Job_Count : ℕ
deriving DecidableEq

/-- One row of the master table produced by the merge of demand and
latest-year supply, with the two derived metrics filled in. -/
structure MasterRecord where
  CIP_Code : Str
  CIP_Title : Str
  Current_Employment : ℚ
  Projected_Employment : ℚ
  Annual_Openings : ℚ
  Mapped_Job_Count : ℕ
  Year : ℤ
  Graduates : ℚ
  Job_Growth_Rate : ℚ
  Saturation_Index : Option ℚ
deriving DecidableEq

/-- Growth metric of get_master_dataframe: the projected employment change
divided by current employment smoothed by one. -/
def job_growth_rate (projected current : ℚ) : ℚ :=
  (projected - current) / (current + 1)

/-- Saturation metric of get_master_dataframe: graduates divided by annual
openings when openings are positive, and the missing-value marker
otherwise. -/
def saturation_index (graduates annual_openings : ℚ) : Option ℚ :=
  if 0 < annual_openings then some (graduates / annual_openings) else none

/-- Most recent year present in a supply history, as the max over the Year
column; used only on a nonempty history. -/
def latest_year (supply_history : List SupplyRow) : ℤ :=
  ((supply_history.map (·.Year)).max?).getD 0

/-- Embedding of get_master_dataframe from the point where the aggregated
demand table and the supply history are in hand: guard for an empty supply
history, restrict supply to its most recent year, inner-join with demand on
the field code, and fill in the two derived metrics. -/
def get_master_dataframe (cip_demand : List DemandRow) (supply_history : List SupplyRow) :
    List MasterRecord :=
  if supply_history.isEmpty then []
  else
    let current_supply := supply_history.filter fun s => s.Year == latest_year supply_history
    cip_demand.flatMap fun d =>
      (current_supply.filter fun s => s.CIP_Code == d.CIP_Code).map fun s =>
        { CIP_Code := d.CIP_Code
          CIP_Title := d.CIP_Title
          Current_Employment := d.Current_Employment
          Projected_Employment := d.Projected_Employment
          Annual_Openings := d.Annual_Openings
          Mapped_Job_Count := d.Mapped_Job_Count
          Year := s.Year
          Graduates := s.Graduates
          Job_Growth_Rate := job_growth_rate d.Projected_Employment d.Current_Employment
          Saturation_Index := saturation_index s.Graduates d.Annual_Openings }

/-- Tag selection of calculate_market_saturation for one saturation value,
with the three conditions tested in the order the source lists them: above
the high threshold, below the low threshold, missing; first hit wins and
the fallback is the moderate tag. -/
def saturation_tag (si : Option ℚ) : Str :=
  if naLt (some (3 / 2)) si then "Highly Saturated".toList
  else if naLt si (some (4 / 5)) then "Unsaturated".toList
  else if si.isNone then "Unknown".toList
  else "Moderately Saturated".toList

/-- Embedding of calculate_market_saturation: every master record is paired
with its saturation tag. -/
def calculate_market_saturation (master : List MasterRecord) : List (MasterRecord × Str) :=
  master.map fun r => (r, saturation_tag r.Saturation_Index)

/-- Tag selection as the specification words it: the undefined check runs
first, then the high threshold, then the low threshold, otherwise the
moderate tag. -/
def saturation_tag_spec (si : Option ℚ) : Str :=
  match si with
  | none => "Unknown".toList
  | some q =>
    if 3 / 2 < q then "Highly Saturated".toList
    else if q < 4 / 5 then "Unsaturated".toList
    else "Moderately Saturated".toList

/-- Fixed map from two-character family codes to family names. -/
def CIP_FAMILY_MAP : List (Str × Str) :=
  [("01".toList, "Agriculture & Veterinary Sciences".toList),
   ("03".toList, "Natural Resources & Conservation".toList),
   ("04".toList, "Architecture & Related Services".toList),
   ("05".toList, "Area, Ethnic, Cultural, Gender Studies".toList),
   ("09".toList, "Communication & Journalism".toList),
   ("10".toList, "Communications Technologies".toList),
   ("11".toList, "Computer & Information Sciences".toList),
   ("12".toList, "Personal & Culinary Services".toList),
   ("13".toList, "Education".toList),
   ("14".toList, "Engineering".toList),
   ("15".toList, "Engineering Technologies".toList),
   ("16".toList, "Foreign Languages & Literatures".toList),
   ("19".toList, "Family & Consumer Sciences".toList),
   ("22".toList, "Legal Professions & Studies".toList),
   ("23".toList, "English Language & Literature".toList),
   ("24".toList, "Liberal Arts & Sciences".toList),
   ("25".toList, "Library Science".toList),
   ("26".toList, "Biological & Biomedical Sciences".toList),
   ("27".toList, "Mathematics & Statistics".toList),
   ("29".toList, "Military Technologies".toList),
   ("30".toList, "Multi/Interdisciplinary Studies".toList),
   ("31".toList, "Parks, Recreation, Leisure, Fitness".toList),
   ("38".toList, "Philosophy & Religious Studies".toList),
   ("39".toList, "Theology & Religious Vocations".toList),
   ("40".toList, "Physical Sciences".toList),
   ("41".toList, "Science Technologies".toList),
   ("42".toList, "Psychology".toList),
   ("43".toList, "Homeland Security, Law Enforcement".toList),
   ("44".toList, "Public Administration & Social Service".toList),
   ("45".toList, "Social Sciences".toList),
   ("46".toList, "Construction Trades".toList),
   ("47".toList, "Mechanic & Repair Technologies".toList),
   ("48".toList, "Precision Production".toList),
   ("49".toList, "Transportation & Materials Moving".toList),
   ("50".toList, "Visual & Performing Arts".toList),
   ("51".toList, "Health Professions".toList),
   ("52".toList, "Business, Management, Marketing".toList),
   ("54".toList, "History".toList)]

/-- Embedding of get_cip_family: a missing or too-short code yields the
unknown-family label; otherwise the part of the code before the first dot,
left-padded to two characters with a zero, is looked up in the family map
with the specialized-fields label as fallback. -/
def get_cip_family (cip_code : Option Str) : Str :=
  match cip_code with
  | none => "Unknown CIP Family".toList
  | some s =>
    if s.length < 2 then "Unknown CIP Family".toList
    else
      let family_code := familyOf s
      let family_code := if family_code.length < 2 then '0' :: family_code else family_code
      (CIP_FAMILY_MAP.lookup family_code).getD ("Other/Specialized Fields".toList)

/-- First saturation-index value among the master records carrying the
given field code, the missing marker when there is none. -/
def current_saturation_of (master : List MasterRecord) (cip : Str) : Option ℚ :=
  (((master.filter fun r => r.CIP_Code == cip).map (·.Saturation_Index)).headD none)

/-- Ascending order on master records by saturation index, missing last. -/
def satLE (a b : MasterRecord) : Prop :=
  naLe a.Saturation_Index b.Saturation_Index = true

instance : DecidableRel satLE := fun a b => by
  unfold satLE; infer_instance

instance : IsTotal MasterRecord satLE := by
  constructor
  intro a b
  unfold satLE naLe
  rcases a.Saturation_Index with _ | x <;> rcases b.Saturation_Index with _ | y <;> simp
  exact le_total x y

instance : IsTrans MasterRecord satLE := by
  constructor
  intro a b c
  unfold satLE naLe
  rcases a.Saturation_Index with _ | x <;> rcases b.Saturation_Index with _ | y <;>
    rcases c.Saturation_Index with _ | z <;> simp
  exact le_trans

/-- Embedding of get_alternatives: return nothing when the requested field
code is absent; otherwise keep records of the same family with a different
code and a present, nonzero saturation index strictly below that of the
requested field, sort them ascending by saturation index, and keep the
first few. -/
def get_alternatives (current_cip : Str) (master : List MasterRecord)
    (reccomendations : ℕ) : List MasterRecord :=
  if !(master.any fun r => r.CIP_Code == current_cip) then []
  else
    let cip_family := familyOf current_cip
    let current_saturation := current_saturation_of master current_cip
    let alternatives := master.filter fun r =>
      ((cip_family ++ ['.']).isPrefixOf r.CIP_Code)
      && (r.CIP_Code != current_cip)
      && naLt r.Saturation_Index current_saturation
      && r.Saturation_Index.isSome
      && (r.Saturation_Index != some 0)
    (List.insertionSort satLE alternatives).take reccomendations

/-- Ascending order on supply rows by year. -/
def yearLE (a b : SupplyRow) : Prop :=
  a.Year ≤ b.Year

instance : DecidableRel yearLE := fun a b => by
  unfold yearLE; infer_instance

instance : IsTotal SupplyRow yearLE :=
  ⟨fun a b => le_total a.Year b.Year⟩

instance : IsTrans SupplyRow yearLE :=
  ⟨fun _ _ _ => le_trans⟩

/-- Supply history restricted to one field code and sorted ascending by
year, as the forecaster prepares it. -/
def degreeData (supply_history : List SupplyRow) (cip_code : Str) : List SupplyRow :=
  List.insertionSort yearLE (supply_history.filter fun r => r.CIP_Code == cip_code)

/-- Regression points of a prepared history: the year as the sole numeric
predictor and the graduate count as the response. -/
def regressionPoints (rows : List SupplyRow) : List (ℚ × ℚ) :=
  rows.map fun r => ((r.Year : ℚ), r.Graduates)

/-- Sum of the predictor values. -/
def sumX (pts : List (ℚ × ℚ)) : ℚ := (pts.map fun p => p.1).sum

/-- Sum of the response values. -/
def sumY (pts : List (ℚ × ℚ)) : ℚ := (pts.map fun p => p.2).sum

/-- Sum of the products of predictor and response. -/
def sumXY (pts : List (ℚ × ℚ)) : ℚ := (pts.map fun p => p.1 * p.2).sum

/-- Sum of the squared predictor values. -/
def sumXX (pts : List (ℚ × ℚ)) : ℚ := (pts.map fun p => p.1 * p.1).sum

/-- Denominator of the closed-form least-squares slope; it vanishes exactly
when the centered predictor column is identically zero. -/
def lsDenom (pts : List (ℚ × ℚ)) : ℚ :=
  (pts.length : ℚ) * sumXX pts - sumX pts * sumX pts

/-- Slope fitted by the least-squares routine of the regression library: the
closed-form ordinary-least-squares slope when the design is nonsingular,
and zero (the minimum-norm solution on a constant predictor) otherwise. -/
def lsSlope (pts : List (ℚ × ℚ)) : ℚ :=
  if lsDenom pts = 0 then 0
  else ((pts.length : ℚ) * sumXY pts - sumX pts * sumY pts) / lsDenom pts

/-- Intercept fitted by the regression library: the mean response minus the
slope times the mean predictor. -/
def lsIntercept (pts : List (ℚ × ℚ)) : ℚ :=
  (sumY pts - lsSlope pts * sumX pts) / (pts.length : ℚ)

/-- Conversion of a rational to an integer by truncation toward zero, the
behaviour of the int conversion applied to the prediction. -/
def truncToInt (q : ℚ) : ℤ :=
  if 0 ≤ q then ⌊q⌋ else ⌈q⌉

/-- Sum of squared residuals of the line with slope m and intercept b over
the given points. -/
def sse (pts : List (ℚ × ℚ)) (m b : ℚ) : ℚ :=
  (pts.map fun p => (p.2 - (b + m * p.1)) * (p.2 - (b + m * p.1))).sum

/-- Embedding of predict_future_supply.  The history is filtered to the
requested field and sorted by year.  With fewer than two points the source
intends to return the most recent known value with zero slope, but the
attribute read it performs for a nonempty series is misspelled (illoc for
iloc), so a singleton series raises an attribute error; the error branch
records that.  With two or more points the least-squares line is fitted,
evaluated at the target year, floored at zero and truncated to an
integer, and returned with the slope and the prepared history.  The
defaults of the source for the last two arguments are 2024 and 4. -/
def predict_future_supply (supply_history : List SupplyRow) (cip_code : Str)
    (current_year projection_years : ℤ) : Except Str (ℤ × ℚ × List SupplyRow) :=
  let degree_data := degreeData supply_history cip_code
  if degree_data.length < 2 then
    if degree_data.isEmpty then Except.ok (0, 0, degree_data)
    else Except.error ("AttributeError: Series object has no attribute illoc".toList)
  else
    let pts := regressionPoints degree_data
    let growth_rate := lsSlope pts
    let target_year : ℚ := ((current_year + projection_years : ℤ) : ℚ)
    let predicted_grads := lsIntercept pts + growth_rate * target_year
    Except.ok (max 0 (truncToInt predicted_grads), growth_rate, degree_data)

/-! ### Helper lemmas -/

theorem naLt_none_right (a : Option ℚ) : naLt a none = false := by
  cases a <;> rfl

theorem naLt_eq_true_iff {a b : Option ℚ} :
    naLt a b = true ↔ ∃ x y : ℚ, a = some x ∧ b = some y ∧ x < y := by
  cases a <;> cases b <;> simp [naLt]

theorem mem_map_snd_of_lookup {l : List (Str × Str)} {k v : Str}
    (h : List.lookup k l = some v) : v ∈ l.map Prod.snd := by
  induction l with
  | nil => simp [List.lookup] at h
  | cons p l ih =>
    obtain ⟨k₀, v₀⟩ := p
    rw [List.lookup] at h
    cases hk : (k == k₀) with
    | true => rw [hk] at h; simp at h; simp [h]
    | false => rw [hk] at h; simp only [List.map_cons]; exact List.mem_cons_of_mem _ (ih h)

theorem familyOf_all_ne_dot (s : Str) : ∀ c ∈ familyOf s, (c != '.') = true := by
  intro c hc
  simp only [familyOf] at hc
  have h := List.mem_takeWhile_imp hc
  simpa using h

theorem familyOf_append_dot (fam t : Str) (hfam : ∀ c ∈ fam, (c != '.') = true) :
    familyOf (fam ++ '.' :: t) = fam := by
  induction fam with
  | nil => simp [familyOf, List.takeWhile_cons]
  | cons a l ih =>
    have ha := hfam a (List.mem_cons_self a l)
    rw [List.cons_append]
    simp only [familyOf, List.takeWhile_cons, ha, if_true]
    have := ih fun c hc => hfam c (List.mem_cons_of_mem _ hc)
    simp only [familyOf] at this
    rw [this]

theorem familyOf_of_isPrefixOf {fam code : Str}
    (hpre : (fam ++ ['.']).isPrefixOf code = true)
    (hfam : ∀ c ∈ fam, (c != '.') = true) :
    familyOf code = fam := by
  obtain ⟨t, ht⟩ := List.isPrefixOf_iff_prefix.mp hpre
  rw [← ht, List.append_assoc, List.singleton_append]
  exact familyOf_append_dot fam t hfam

theorem sum_affine (P : List (ℚ × ℚ)) (c d : ℚ) :
    (P.map fun p => p.2 - (c + d * p.1)).sum
      = sumY P - ((P.length : ℚ) * c + d * sumX P) := by
  induction P with
  | nil => simp [sumY, sumX]
  | cons p l ih =>
    simp only [sumY, sumX, List.map_cons, List.sum_cons, List.length_cons] at *
    rw [ih]
    push_cast
    ring

theorem sum_affine_x (P : List (ℚ × ℚ)) (c d : ℚ) :
    (P.map fun p => p.1 * (p.2 - (c + d * p.1))).sum
      = sumXY P - (c * sumX P + d * sumXX P) := by
  induction P with
  | nil => simp [sumXY, sumX, sumXX]
  | cons p l ih =>
    simp only [sumXY, sumX, sumXX, List.map_cons, List.sum_cons] at *
    rw [ih]
    ring

theorem sum_sq_nonneg (P : List (ℚ × ℚ)) (f : ℚ × ℚ → ℚ) :
    0 ≤ (P.map fun p => f p * f p).sum := by
  induction P with
  | nil => simp
  | cons p l ih =>
    simp only [List.map_cons, List.sum_cons]
    have h := mul_self_nonneg (f p)
    linarith

theorem ls_normal_eq_one (P : List (ℚ × ℚ)) (hn : (P.length : ℚ) ≠ 0) :
    (P.map fun p => p.2 - (lsIntercept P + lsSlope P * p.1)).sum = 0 := by
  rw [sum_affine, lsIntercept]
  field_simp

theorem ls_normal_eq_two (P : List (ℚ × ℚ)) (hn : (P.length : ℚ) ≠ 0)
    (hd : lsDenom P ≠ 0) :
    (P.map fun p => p.1 * (p.2 - (lsIntercept P + lsSlope P * p.1))).sum = 0 := by
  have hd' : (P.length : ℚ) * sumXX P - sumX P * sumX P ≠ 0 := by
    rw [lsDenom] at hd; exact hd
  have hs : lsSlope P
      = ((P.length : ℚ) * sumXY P - sumX P * sumY P)
        / ((P.length : ℚ) * sumXX P - sumX P * sumX P) := by
    rw [lsSlope, if_neg hd, lsDenom]
  rw [sum_affine_x, lsIntercept, hs]
  field_simp
  ring

theorem sse_expand (P : List (ℚ × ℚ)) (m b mq bq : ℚ) :
    sse P mq bq
      = sse P m b
        + (2 * (b - bq)) * (P.map fun p => p.2 - (b + m * p.1)).sum
        + (2 * (m - mq)) * (P.map fun p => p.1 * (p.2 - (b + m * p.1))).sum
        + (P.map fun p =>
            ((b - bq) + (m - mq) * p.1) * ((b - bq) + (m - mq) * p.1)).sum := by
  induction P with
  | nil => simp [sse]
  | cons p l ih =>
    simp only [sse, List.map_cons, List.sum_cons] at *
    linear_combination ih

theorem ls_min (P : List (ℚ × ℚ)) (m b : ℚ)
    (h1 : (P.map fun p => p.2 - (b + m * p.1)).sum = 0)
    (h2 : (P.map fun p => p.1 * (p.2 - (b + m * p.1))).sum = 0)
    (mq bq : ℚ) : sse P m b ≤ sse P mq bq := by
  have hq := sum_sq_nonneg P fun p => (b - bq) + (m - mq) * p.1
  rw [sse_expand P m b mq bq, h1, h2]
  linarith

/-! ### Claim theorems -/

theorem saturation_tag_eq_spec (si : Option ℚ) : saturation_tag si = saturation_tag_spec si := by
  rcases si with _ | q
  · rfl
  · simp only [saturation_tag, saturation_tag_spec, naLt, Option.isNone_some]
    by_cases h1 : (3 / 2 : ℚ) < q
    · simp [h1]
    · by_cases h2 : q < (4 / 5 : ℚ) <;> simp [h1, h2]

/-- C3: for every master record, the tag assigned by calculate_market_saturation
agrees with the precedence the specification states: an undefined saturation
index yields Unknown, otherwise an index above 1.5 yields Highly Saturated,
otherwise an index below 0.8 yields Unsaturated, otherwise Moderately
Saturated; the first matching rule wins. -/
theorem calculate_market_saturation_precedence (master : List MasterRecord) :
    calculate_market_saturation master
      = master.map fun r => (r, saturation_tag_spec r.Saturation_Index) := by
  unfold calculate_market_saturation
  exact List.map_congr_left fun r _ => by rw [saturation_tag_eq_spec]

/-- C4: the saturation index equals Graduates divided by AnnualOpenings when
AnnualOpenings is positive, and is the explicit missing-value marker, not 0
and not an error, whenever AnnualOpenings is 0, regardless of Graduates. -/
theorem saturation_index_zero_openings (g a : ℚ) :
    (0 < a → saturation_index g a = some (g / a))
    ∧ (a = 0 → saturation_index g a = none) := by
  constructor
  · intro h; simp [saturation_index, h]
  · intro h; simp [saturation_index, h]

theorem saturation_index_zero_openings_witness :
    ((0 : ℚ) < 2 ∧ saturation_index 6 2 = some (6 / 2))
    ∧ ((0 : ℚ) = 0 ∧ saturation_index 5 0 = none) :=
  ⟨⟨by norm_num, (saturation_index_zero_openings 6 2).1 (by norm_num)⟩,
   ⟨rfl, (saturation_index_zero_openings 5 0).2 rfl⟩⟩

/-- C7: for every master record with nonnegative current employment, the job
growth rate equals exactly the projected change divided by current employment
plus one, the denominator is nonzero thanks to the smoothing, and the
division is exact in the sense that multiplying back by the denominator
recovers the numerator. -/
theorem job_growth_rate_finite (p c : ℚ) (hc : 0 ≤ c) :
    job_growth_rate p c = (p - c) / (c + 1)
    ∧ c + 1 ≠ 0
    ∧ job_growth_rate p c * (c + 1) = p - c := by
  have hne : c + 1 ≠ 0 := by positivity
  exact ⟨rfl, hne, by rw [job_growth_rate]; exact div_mul_cancel₀ _ hne⟩

theorem job_growth_rate_finite_witness :
    (0 : ℚ) ≤ 4 ∧ job_growth_rate 10 4 * (4 + 1) = 10 - 4 :=
  ⟨by norm_num, (job_growth_rate_finite 10 4 (by norm_num)).2.2⟩

/-- C1: the specification requires the forecast never to raise on a history
with fewer than 2 points for the requested field, returning the most recent
known value, or 0, with slope 0.  The code honours this for an empty
filtered history but misspells the positional accessor as illoc on the
nonempty branch, so a singleton history raises an attribute error instead of
returning the single known value; this theorem records both behaviours of
the embedded code. -/
theorem predict_future_supply_singleton_bug :
    predict_future_supply [⟨"11.0101".toList, 2020, 50⟩] ("11.0101".toList) 2024 4
      = Except.error ("AttributeError: Series object has no attribute illoc".toList)
    ∧ predict_future_supply [] ("11.0101".toList) 2024 4 = Except.ok (0, 0, []) := by
  constructor
  · with_unfolding_all decide
  · with_unfolding_all decide

/-- C8: for every code of length at least 2, the family lookup returns
either one of the mapped family names or the specialized-fields fallback and
never raises; a missing code or a code shorter than 2 characters yields the
distinct unknown-family fallback. -/
theorem get_cip_family_total :
    (∀ s : Str, 2 ≤ s.length →
      (get_cip_family (some s) ∈ CIP_FAMILY_MAP.map Prod.snd
       ∨ get_cip_family (some s) = "Other/Specialized Fields".toList))
    ∧ get_cip_family none = "Unknown CIP Family".toList
    ∧ (∀ s : Str, s.length < 2 → get_cip_family (some s) = "Unknown CIP Family".toList) := by
  refine ⟨?_, rfl, ?_⟩
  · intro s h2
    simp only [get_cip_family]
    rw [if_neg (Nat.not_lt.mpr h2)]
    cases hl : CIP_FAMILY_MAP.lookup
        (if (familyOf s).length < 2 then '0' :: familyOf s else familyOf s) with
    | none => right; simp [hl]
    | some v =>
      left
      simpa [hl] using mem_map_snd_of_lookup hl
  · intro s h
    simp only [get_cip_family]
    rw [if_pos h]

theorem get_cip_family_total_witness :
    (2 ≤ ("99.12".toList).length
     ∧ (get_cip_family (some ("99.12".toList)) ∈ CIP_FAMILY_MAP.map Prod.snd
        ∨ get_cip_family (some ("99.12".toList)) = "Other/Specialized Fields".toList))
    ∧ (("1".toList).length < 2
       ∧ get_cip_family (some ("1".toList)) = "Unknown CIP Family".toList) :=
  ⟨⟨by decide, get_cip_family_total.1 _ (by decide)⟩,
   ⟨by decide, get_cip_family_total.2.2 _ (by decide)⟩⟩

/-- C10 counterexample: the input code 1 has a one-character part before the
first dot and the zero-padded family 01 is in the family map, yet the lookup
returns the unknown-family fallback, not the mapped family name, because the
too-short guard fires before the padding; so the claim is false for input
codes shorter than 2 characters. -/
theorem get_cip_family_one_char_cex :
    (familyOf ("1".toList)).length = 1
    ∧ CIP_FAMILY_MAP.lookup ('0' :: familyOf ("1".toList))
        = some ("Agriculture & Veterinary Sciences".toList)
    ∧ get_cip_family (some ("1".toList)) = "Unknown CIP Family".toList
    ∧ get_cip_family (some ("1".toList)) ≠ "Agriculture & Veterinary Sciences".toList :=
  ⟨by decide, by decide, by decide, by decide⟩

/-- C10 (amended): for every input code of length at least 2 whose part
before the first dot is a single character, the family lookup left-pads that
part with a zero before consulting the family map, so a one-digit family
resolves to the corresponding two-digit family entry; in particular 1.0101
resolves to the family of 01. -/
theorem get_cip_family_pads_one_digit :
    (∀ s : Str, 2 ≤ s.length → (familyOf s).length = 1 →
      get_cip_family (some s)
        = (CIP_FAMILY_MAP.lookup ('0' :: familyOf s)).getD
            ("Other/Specialized Fields".toList))
    ∧ get_cip_family (some ("1.0101".toList))
        = "Agriculture & Veterinary Sciences".toList := by
  constructor
  · intro s h2 h1
    simp only [get_cip_family]
    rw [if_neg (Nat.not_lt.mpr h2), if_pos (by rw [h1]; norm_num)]
  · decide

theorem get_cip_family_pads_one_digit_witness :
    2 ≤ ("1.0101".toList).length
    ∧ (familyOf ("1.0101".toList)).length = 1
    ∧ get_cip_family (some ("1.0101".toList))
        = (CIP_FAMILY_MAP.lookup ('0' :: familyOf ("1.0101".toList))).getD
            ("Other/Specialized Fields".toList) :=
  ⟨by decide, by decide, get_cip_family_pads_one_digit.1 _ (by decide) (by decide)⟩

/-- C2: the recommender returns at most the requested number of records;
every returned record shares the family of the target code, has a different
code, and carries a present, nonzero saturation index strictly below the
index of the target record; the result is sorted ascending by saturation
index; and a target code absent from the master records yields the empty
sequence. -/
theorem get_alternatives_spec (cip : Str) (master : List MasterRecord) (limit : ℕ) :
    (get_alternatives cip master limit).length ≤ limit
    ∧ (∀ r ∈ get_alternatives cip master limit,
        familyOf r.CIP_Code = familyOf cip
        ∧ r.CIP_Code ≠ cip
        ∧ ∃ q cq : ℚ, r.Saturation_Index = some q ∧ q ≠ 0
            ∧ current_saturation_of master cip = some cq ∧ q < cq)
    ∧ (get_alternatives cip master limit).Pairwise
        (fun a b => ∀ x y : ℚ,
          a.Saturation_Index = some x → b.Saturation_Index = some y → x ≤ y)
    ∧ ((∀ r ∈ master, r.CIP_Code ≠ cip) → get_alternatives cip master limit = []) := by
  by_cases hpres : (master.any fun r => r.CIP_Code == cip) = true
  · have hres : get_alternatives cip master limit
        = (List.insertionSort satLE (master.filter fun r =>
            ((familyOf cip ++ ['.']).isPrefixOf r.CIP_Code)
            && (r.CIP_Code != cip)
            && naLt r.Saturation_Index (current_saturation_of master cip)
            && r.Saturation_Index.isSome
            && (r.Saturation_Index != some 0))).take limit := by
      unfold get_alternatives
      rw [if_neg (by simp [hpres])]
    rw [hres]
    refine ⟨List.length_take_le _ _, ?_, ?_, ?_⟩
    · intro r hr
      have hr1 : r ∈ List.insertionSort satLE _ := List.mem_of_mem_take hr
      have hr2 := ((List.perm_insertionSort satLE _).mem_iff).mp hr1
      have hr3 := (List.mem_filter.mp hr2).2
      simp only [Bool.and_eq_true] at hr3
      obtain ⟨⟨⟨⟨hpre, hne⟩, hlt⟩, _⟩, hnz⟩ := hr3
      obtain ⟨x, y, hx, hy, hxy⟩ := naLt_eq_true_iff.mp hlt
      refine ⟨familyOf_of_isPrefixOf hpre (familyOf_all_ne_dot cip),
        by simpa using hne, x, y, hx, ?_, hy, hxy⟩
      intro h0
      rw [hx, h0] at hnz
      simp at hnz
    · have hs := List.sorted_insertionSort satLE (master.filter fun r =>
        ((familyOf cip ++ ['.']).isPrefixOf r.CIP_Code)
        && (r.CIP_Code != cip)
        && naLt r.Saturation_Index (current_saturation_of master cip)
        && r.Saturation_Index.isSome
        && (r.Saturation_Index != some 0))
      have hp := hs.sublist (List.take_sublist limit _)
      refine hp.imp ?_
      intro a b hab x y hx hy
      unfold satLE naLe at hab
      rw [hx, hy] at hab
      exact of_decide_eq_true hab
    · intro habs
      exfalso
      obtain ⟨r, hrm, hrq⟩ := List.any_eq_true.mp hpres
      exact habs r hrm (by simpa using hrq)
  · have hres : get_alternatives cip master limit = [] := by
      unfold get_alternatives
      rw [if_pos]
      simp only [Bool.not_eq_true] at hpres
      simp [hpres]
    rw [hres]
    exact ⟨by simp, by simp, List.Pairwise.nil, fun _ => rfl⟩

theorem get_alternatives_spec_witness :
    (∀ r ∈ ([⟨"12.0101".toList, [], 0, 0, 0, 0, 2024, 10, 0, some 1⟩] : List MasterRecord),
      r.CIP_Code ≠ "11.0101".toList)
    ∧ get_alternatives ("11.0101".toList)
        [⟨"12.0101".toList, [], 0, 0, 0, 0, 2024, 10, 0, some 1⟩] 3 = [] :=
  ⟨by decide,
   (get_alternatives_spec ("11.0101".toList)
     [⟨"12.0101".toList, [], 0, 0, 0, 0, 2024, 10, 0, some 1⟩] 3).2.2.2 (by decide)⟩

/-- C9: when the target code is present among the master records but the
saturation index of its first matching record is the missing-value marker,
the recommender returns the empty sequence without raising, because no
strict comparison against a missing value holds. -/
theorem get_alternatives_undefined_target (cip : Str) (master : List MasterRecord)
    (limit : ℕ) (hpres : ∃ r ∈ master, r.CIP_Code = cip)
    (hnone : current_saturation_of master cip = none) :
    get_alternatives cip master limit = [] := by
  unfold get_alternatives
  rw [if_neg]
  · show (List.insertionSort satLE (master.filter fun r =>
        ((familyOf cip ++ ['.']).isPrefixOf r.CIP_Code)
        && (r.CIP_Code != cip)
        && naLt r.Saturation_Index (current_saturation_of master cip)
        && r.Saturation_Index.isSome
        && (r.Saturation_Index != some 0))).take limit = []
    rw [hnone]
    have hnil : (master.filter fun r =>
        ((familyOf cip ++ ['.']).isPrefixOf r.CIP_Code)
        && (r.CIP_Code != cip)
        && naLt r.Saturation_Index none
        && r.Saturation_Index.isSome
        && (r.Saturation_Index != some 0)) = [] := by
      rw [List.filter_eq_nil_iff]
      intro r _
      simp [naLt_none_right]
    rw [hnil]
    simp
  · obtain ⟨r, hrm, hrq⟩ := hpres
    simp only [Bool.not_eq_true', Bool.not_eq_false]
    exact List.any_eq_true.mpr ⟨r, hrm, by simpa using hrq⟩

theorem get_alternatives_undefined_target_witness :
    (∃ r ∈ ([⟨"11.0101".toList, [], 0, 0, 0, 0, 2024, 10, 0, none⟩] : List MasterRecord),
      r.CIP_Code = "11.0101".toList)
    ∧ current_saturation_of
        [⟨"11.0101".toList, [], 0, 0, 0, 0, 2024, 10, 0, none⟩] ("11.0101".toList) = none
    ∧ get_alternatives ("11.0101".toList)
        [⟨"11.0101".toList, [], 0, 0, 0, 0, 2024, 10, 0, none⟩] 3 = [] :=
  ⟨⟨⟨"11.0101".toList, [], 0, 0, 0, 0, 2024, 10, 0, none⟩, by decide, rfl⟩, by decide,
   get_alternatives_undefined_target ("11.0101".toList)
     [⟨"11.0101".toList, [], 0, 0, 0, 0, 2024, 10, 0, none⟩] 3
     ⟨⟨"11.0101".toList, [], 0, 0, 0, 0, 2024, 10, 0, none⟩, by decide, rfl⟩ (by decide)⟩

theorem calculate_market_saturation_cips (M : List MasterRecord) :
    ((calculate_market_saturation M).map fun rt => rt.1.CIP_Code)
      = M.map (·.CIP_Code) := by
  simp [calculate_market_saturation, List.map_map, Function.comp]

/-- C5 counterexample: a field present in both input code sets need not
survive the merge, because supply is first restricted to its most recent
year.  Here the field 11 is in the demand set and in the supply set, but its
only supply row is from 2016 while the most recent supply year is 2024, so
the merged master set is empty rather than containing 11. -/
theorem master_merge_roundtrip_cex :
    ("11".toList ∈ ([⟨"11".toList, "T".toList, 1, 2, 3, 1⟩] : List DemandRow).map (·.CIP_Code))
    ∧ ("11".toList
        ∈ ([⟨"11".toList, 2016, 5⟩, ⟨"99".toList, 2024, 7⟩] : List SupplyRow).map (·.CIP_Code))
    ∧ (calculate_market_saturation (get_master_dataframe
          [⟨"11".toList, "T".toList, 1, 2, 3, 1⟩]
          [⟨"11".toList, 2016, 5⟩, ⟨"99".toList, 2024, 7⟩])).map (fun rt => rt.1.CIP_Code)
        = [] := by
  refine ⟨by decide, by decide, by with_unfolding_all decide⟩

/-- C5 (amended): after the master merge and the saturation calculation the
set of field codes of the master records equals the intersection of the
demand field-code set with the field-code set of the supply rows from the
most recent year present; supply rows of earlier years do not count. -/
theorem master_cips_intersection (demand : List DemandRow) (supply : List SupplyRow) (c : Str) :
    (c ∈ (calculate_market_saturation (get_master_dataframe demand supply)).map
        fun rt => rt.1.CIP_Code)
      ↔ (c ∈ demand.map (·.CIP_Code)
         ∧ c ∈ (supply.filter fun s => s.Year == latest_year supply).map (·.CIP_Code)) := by
  rw [calculate_market_saturation_cips]
  unfold get_master_dataframe
  by_cases hemp : supply.isEmpty
  · cases supply with
    | nil => simp
    | cons a l => simp at hemp
  · rw [if_neg hemp]
    constructor
    · intro hmem
      simp only [List.mem_map, List.mem_flatMap, List.mem_filter] at hmem
      obtain ⟨m, ⟨d, hd, s, ⟨⟨hsmem, hsyear⟩, hscode⟩, hms⟩, hc⟩ := hmem
      subst hms
      refine ⟨List.mem_map.mpr ⟨d, hd, hc⟩,
        List.mem_map.mpr ⟨s, List.mem_filter.mpr ⟨hsmem, hsyear⟩, ?_⟩⟩
      have hsd : s.CIP_Code = d.CIP_Code := by simpa using hscode
      rw [hsd]
      exact hc
    · rintro ⟨hdem, hsup⟩
      obtain ⟨d, hd, hdc⟩ := List.mem_map.mp hdem
      obtain ⟨s, hsf, hsc⟩ := List.mem_map.mp hsup
      refine List.mem_map.mpr ⟨_, List.mem_flatMap.mpr ⟨d, hd, List.mem_map.mpr
        ⟨s, List.mem_filter.mpr ⟨hsf, by simp [hsc, hdc]⟩, rfl⟩⟩, hdc⟩

theorem master_cips_intersection_witness :
    ("11".toList ∈ (calculate_market_saturation (get_master_dataframe
        [⟨"11".toList, "T".toList, 1, 2, 3, 1⟩]
        [⟨"11".toList, 2024, 5⟩])).map fun rt => rt.1.CIP_Code)
      ↔ (("11".toList ∈ ([⟨"11".toList, "T".toList, 1, 2, 3, 1⟩] : List DemandRow).map (·.CIP_Code))
         ∧ "11".toList ∈ (([⟨"11".toList, 2024, 5⟩] : List SupplyRow).filter
              fun s => s.Year == latest_year [⟨"11".toList, 2024, 5⟩]).map (·.CIP_Code)) :=
  master_cips_intersection [⟨"11".toList, "T".toList, 1, 2, 3, 1⟩] [⟨"11".toList, 2024, 5⟩]
    ("11".toList)

/-- C6: on a history with at least two points for the requested field and a
nonsingular design, the forecast returns the slope and the value at the
target year of the ordinary-least-squares line (the fitted pair satisfies
both normal equations and minimises the sum of squared residuals over all
lines), with the projection truncated to an integer and floored at zero; and
on the perfectly linear history (2016, 100), (2017, 110), (2018, 120)
projected to the year 2020 it returns slope 10 and projection 140. -/
theorem predict_future_supply_ols :
    (∀ (hist : List SupplyRow) (cip : Str) (cy py : ℤ),
        2 ≤ (degreeData hist cip).length →
        lsDenom (regressionPoints (degreeData hist cip)) ≠ 0 →
        ∃ m b : ℚ,
          ((regressionPoints (degreeData hist cip)).map fun p => p.2 - (b + m * p.1)).sum = 0
          ∧ ((regressionPoints (degreeData hist cip)).map
              fun p => p.1 * (p.2 - (b + m * p.1))).sum = 0
          ∧ (∀ mq bq : ℚ,
              sse (regressionPoints (degreeData hist cip)) m b
                ≤ sse (regressionPoints (degreeData hist cip)) mq bq)
          ∧ predict_future_supply hist cip cy py
              = Except.ok (max 0 (truncToInt (b + m * ((cy + py : ℤ) : ℚ))), m,
                  degreeData hist cip))
    ∧ predict_future_supply
        [⟨"x".toList, 2016, 100⟩, ⟨"x".toList, 2017, 110⟩, ⟨"x".toList, 2018, 120⟩]
        ("x".toList) 2016 4
      = Except.ok (140, 10,
          [⟨"x".toList, 2016, 100⟩, ⟨"x".toList, 2017, 110⟩, ⟨"x".toList, 2018, 120⟩]) := by
  constructor
  · intro hist cip cy py h2 hd
    have hlen : (regressionPoints (degreeData hist cip)).length
        = (degreeData hist cip).length := by
      simp [regressionPoints]
    have hn : ((regressionPoints (degreeData hist cip)).length : ℚ) ≠ 0 := by
      rw [hlen]
      have hpos : 0 < (degreeData hist cip).length := by omega
      exact_mod_cast hpos.ne'
    refine ⟨lsSlope (regressionPoints (degreeData hist cip)),
      lsIntercept (regressionPoints (degreeData hist cip)),
      ls_normal_eq_one _ hn, ls_normal_eq_two _ hn hd,
      fun mq bq => ls_min _ _ _ (ls_normal_eq_one _ hn) (ls_normal_eq_two _ hn hd) mq bq,
      ?_⟩
    unfold predict_future_supply
    rw [if_neg (by omega)]
  · with_unfolding_all decide

theorem predict_future_supply_ols_witness :
    2 ≤ (degreeData
        [⟨"x".toList, 2016, 100⟩, ⟨"x".toList, 2017, 110⟩, ⟨"x".toList, 2018, 120⟩]
        ("x".toList)).length
    ∧ lsDenom (regressionPoints (degreeData
        [⟨"x".toList, 2016, 100⟩, ⟨"x".toList, 2017, 110⟩, ⟨"x".toList, 2018, 120⟩]
        ("x".toList))) ≠ 0
    ∧ ∃ m b : ℚ,
        ((regressionPoints (degreeData
            [⟨"x".toList, 2016, 100⟩, ⟨"x".toList, 2017, 110⟩, ⟨"x".toList, 2018, 120⟩]
            ("x".toList))).map fun p => p.2 - (b + m * p.1)).sum = 0
        ∧ ((regressionPoints (degreeData
            [⟨"x".toList, 2016, 100⟩, ⟨"x".toList, 2017, 110⟩, ⟨"x".toList, 2018, 120⟩]
            ("x".toList))).map fun p => p.1 * (p.2 - (b + m * p.1))).sum = 0
        ∧ (∀ mq bq : ℚ,
            sse (regressionPoints (degreeData
              [⟨"x".toList, 2016, 100⟩, ⟨"x".toList, 2017, 110⟩, ⟨"x".toList, 2018, 120⟩]
              ("x".toList))) m b
              ≤ sse (regressionPoints (degreeData
                [⟨"x".toList, 2016, 100⟩, ⟨"x".toList, 2017, 110⟩, ⟨"x".toList, 2018, 120⟩]
                ("x".toList))) mq bq)
        ∧ predict_future_supply
            [⟨"x".toList, 2016, 100⟩, ⟨"x".toList, 2017, 110⟩, ⟨"x".toList, 2018, 120⟩]
            ("x".toList) 2016 4
            = Except.ok (max 0 (truncToInt (b + m * (((2016 : ℤ) + 4 : ℤ) : ℚ))), m,
                degreeData
                  [⟨"x".toList, 2016, 100⟩, ⟨"x".toList, 2017, 110⟩, ⟨"x".toList, 2018, 120⟩]
                  ("x".toList)) :=
  ⟨by with_unfolding_all decide, by with_unfolding_all decide,
   predict_future_supply_ols.1
     [⟨"x".toList, 2016, 100⟩, ⟨"x".toList, 2017, 110⟩, ⟨"x".toList, 2018, 120⟩]
     ("x".toList) 2016 4
     (by with_unfolding_all decide) (by with_unfolding_all decide)⟩
